import Mathlib

/-!
Verification development for the cc-relay HTTP proxy core.

The Go source is shallowly embedded: header names, header values, API keys
and request bodies are byte sequences, modelled as `List Nat` (each element
a byte value); Go's `net/http`/`net/textproto` header-map operations,
`encoding/json` unmarshalling and the repository's own functions are
translated into executable Lean definitions.  ASCII string literals are
turned into byte lists with `bytes`.
-/

namespace CCRelay

/-- Byte list of an ASCII string literal (for ASCII text, the UTF-8 bytes
are exactly the character code points). -/
def bytes (s : String) : List Nat :=
  s.toList.map Char.toNat

/-! ## Go `net/textproto` header-name canonicalization

`http.CanonicalHeaderKey` leaves a key containing a byte that is not a
valid MIME token byte unchanged, and otherwise upper-cases the first byte
and every byte following a hyphen while lower-casing all other bytes. -/

/-- Valid MIME header token bytes, as in Go `net/textproto`'s
`validHeaderFieldByte` table: alphanumerics together with
bytes 33, 35, 36, 37, 38, 39, 42, 43, 45, 46, 94, 95, 96, 124, 126. -/
def isTokenByte (b : Nat) : Bool :=
  (48 ≤ b && b ≤ 57) || (65 ≤ b && b ≤ 90) || (97 ≤ b && b ≤ 122) ||
  b == 33 || b == 35 || b == 36 || b == 37 || b == 38 || b == 39 ||
  b == 42 || b == 43 || b == 45 || b == 46 || b == 94 || b == 95 ||
  b == 96 || b == 124 || b == 126

/-- ASCII lower-casing of one byte. -/
def lowerByte (b : Nat) : Nat :=
  if 65 ≤ b ∧ b ≤ 90 then b + 32 else b

/-- ASCII upper-casing of one byte. -/
def upperByte (b : Nat) : Nat :=
  if 97 ≤ b ∧ b ≤ 122 then b - 32 else b

/-- The case-normalization pass of `canonicalMIMEHeaderKey`: upper-case at
the start and after each hyphen (byte 45), lower-case elsewhere. -/
def canonSeq : Bool → List Nat → List Nat
  | _, [] => []
  | upper, b :: bs =>
    let b' := if upper then upperByte b else lowerByte b
    b' :: canonSeq (b' == 45) bs

/-- Go `http.CanonicalHeaderKey`: canonical MIME form for valid token
keys, the key unchanged otherwise. -/
def canonicalHeaderKey (k : List Nat) : List Nat :=
  if k.all isTokenByte then canonSeq true k else k

/-! ## Go `http.Header`

`http.Header` is `map[string][]string`.  The map is modelled as an
association list with pairwise-distinct keys; the list order stands for
one particular map iteration order. -/

/-- Model of Go `http.Header` (`map[string][]string`). -/
abbrev HeaderMap := List (List Nat × List (List Nat))

/-- Map assignment `m[k] = vs`: replace the entry for `k` or add one. -/
def setAssoc : HeaderMap → List Nat → List (List Nat) → HeaderMap
  | [], k, vs => [(k, vs)]
  | e :: rest, k, vs =>
    if e.1 == k then (k, vs) :: rest else e :: setAssoc rest k vs

/-- Go `Header.Set`: store the single value `v` under the canonical form
of `k`. -/
def headerSet (h : HeaderMap) (k v : List Nat) : HeaderMap :=
  setAssoc h (canonicalHeaderKey k) [v]

/-- Go `Header.Get`: first value stored under the canonical form of `k`,
or the empty string if the key is absent or has no values. -/
def headerGet (h : HeaderMap) (k : List Nat) : List Nat :=
  match h.find? (fun e => e.1 == canonicalHeaderKey k) with
  | some (_, v :: _) => v
  | _ => []

/-- Go `headers[k] = append(headers[k], vs...)`: extend the values stored
under `k`, creating the entry if it is absent. -/
def appendValues : HeaderMap → List Nat → List (List Nat) → HeaderMap
  | [], k, vs => [(k, vs)]
  | e :: rest, k, vs =>
    if e.1 == k then (e.1, e.2 ++ vs) :: rest else e :: appendValues rest k vs

/-- A header key as produced by Go's HTTP request parsing: a valid MIME
token already in canonical form (Go canonicalizes all inbound header names
and rejects non-token names at the wire). -/
def ValidCanonKey (k : List Nat) : Bool :=
  k.all isTokenByte && canonSeq true k == k

/-- Well-formedness of a header map produced by Go's HTTP machinery:
every key is a canonical valid token and keys are pairwise distinct
(it is a map). -/
def HeaderWF (h : HeaderMap) : Prop :=
  (∀ e ∈ h, ValidCanonKey e.1 = true) ∧ (h.map (fun e => e.1)).Nodup

/-! ## Requests, response writers, handlers

An `http.Request` is modelled by the fields the core reads: method, URL
path, header map and buffered body.  The request context carries the
request identifier installed by `AddRequestID`; `ridSeed` stands for the
per-request entropy drawn when a fresh identifier is minted (two requests
whose identifiers are generated independently have distinct seeds).

An `http.ResponseWriter` is modelled by its observable state: the header
map, the status committed by the first `WriteHeader` call, and the body
written so far.  `LoggingMiddleware`'s status-capturing wrapper forwards
`WriteHeader`/`Write` unchanged, so it does not appear in the state. -/

/-- The body of a response.  `WriteError` (an external collaborator whose
wire format is not part of the core) is modelled as writing a structured
error object with a machine-readable kind and a human-readable message. -/
inductive RespBody where
  | empty : RespBody
  | raw (bs : List Nat) : RespBody
  | errObj (kind message : List Nat) : RespBody
deriving DecidableEq

/-- Model of `http.Request` (the fields the core reads). -/
structure Request where
  method : String
  path : String
  headers : HeaderMap
  body : List Nat
  /-- Request-context identifier installed by `AddRequestID` (empty before
  the RequestID decorator runs). -/
  ctxRequestID : List Nat := []
  /-- Per-request entropy used when a fresh request identifier is minted. -/
  ridSeed : Nat := 0

/-- Observable state of an `http.ResponseWriter`. -/
structure ResponseWriter where
  headers : HeaderMap
  status : Option Nat
  body : RespBody
deriving DecidableEq

/-- A response writer before any handler has touched it. -/
def emptyRW : ResponseWriter := ⟨[], none, RespBody.empty⟩

/-- `http.Handler.ServeHTTP`, as a state transformer on the writer. -/
abbrev Handler := Request → ResponseWriter → ResponseWriter

/-- A middleware decorator (`func(http.Handler) http.Handler`). -/
abbrev Middleware := Handler → Handler

/-- Go `WriteHeader`: the first call commits the status, later calls are
ignored. -/
def writeHeaderStatus (w : ResponseWriter) (status : Nat) : ResponseWriter :=
  match w.status with
  | some _ => w
  | none => { w with status := some status }

/-- Go `Write`: an implicit `WriteHeader(200)` if none was committed, then
append the bytes to the body. -/
def writeBytes (w : ResponseWriter) (bs : List Nat) : ResponseWriter :=
  let w := writeHeaderStatus w 200
  match w.body with
  | RespBody.empty => { w with body := RespBody.raw bs }
  | RespBody.raw a => { w with body := RespBody.raw (a ++ bs) }
  | RespBody.errObj k m => { w with body := RespBody.errObj k m }

/-- Modelled from the spec: `WriteError` (the error-writer collaborator,
not under src/) "serializes an error kind/message pair to the chosen wire
format with a given status code"; the serialized wire format is abstracted
as the structured body `RespBody.errObj kind message`. -/
def WriteError (w : ResponseWriter) (status : Nat) (kind message : List Nat) :
    ResponseWriter :=
  let w := writeHeaderStatus w status
  { w with body := RespBody.errObj kind message }

/-- The machine-readable kind of every authentication failure. -/
def authenticationErrorKind : List Nat := bytes "authentication_error"

/-- The `x-api-key` request header name. -/
def xApiKeyName : List Nat := bytes "x-api-key"

/-- The `X-Request-ID` header name. -/
def xRequestIDName : List Nat := bytes "X-Request-ID"

/-! ## Middleware (internal/proxy/middleware.go)

`AuthMiddleware` pre-hashes the expected key with SHA-256 at creation
time, hashes the provided key per request, and passes the request on
exactly when `subtle.ConstantTimeCompare` of the two 32-byte digests
returns 1, i.e. exactly when the digests are equal byte lists (for inputs
of equal length `ConstantTimeCompare` returns 1 iff the contents are
equal, and the digests always have length 32).  The SHA-256 digest
function itself is a Go standard-library collaborator; it is modelled as
an explicit digest parameter `H`, and the theorems assume `H` is
injective on the compared inputs — precisely the collision-freeness the
code's digest comparison is designed around. -/

/-- `AuthMiddleware(expectedAPIKey)` from internal/proxy/middleware.go,
with the SHA-256 digest function abstracted as `H`.  Log emission
(`zerolog`) has no effect on the response state and is not modelled. -/
def AuthMiddleware (H : List Nat → List Nat) (expectedAPIKey : List Nat) :
    Middleware := fun next => fun r w =>
  let providedKey := headerGet r.headers xApiKeyName
  if providedKey = [] then
    WriteError w 401 authenticationErrorKind (bytes "missing x-api-key header")
  else if H providedKey ≠ H expectedAPIKey then
    WriteError w 401 authenticationErrorKind (bytes "invalid x-api-key")
  else
    next r w

/-- Modelled from the spec: the identifier minting performed inside
`AddRequestID`/`GetRequestID` (internal/proxy, not under src/) — "otherwise
mint a fresh opaque identifier", with distinct requests receiving distinct
generated values and every generated value non-empty.  Only non-emptiness
and injectivity in the per-request entropy are relevant to the claims, so
the opaque token is modelled as an injective function of the seed. -/
def generateRequestID (seed : Nat) : List Nat :=
  103 :: List.replicate seed 120

/-- Modelled from the spec: `AddRequestID(ctx, requestID)` (not under
src/) stores the client-supplied identifier when it is non-empty and a
freshly minted one otherwise; `GetRequestID` reads it back. -/
def AddRequestID (seed : Nat) (requestID : List Nat) : List Nat :=
  if requestID = [] then generateRequestID seed else requestID

/-- `RequestIDMiddleware()` from internal/proxy/middleware.go: read
`X-Request-ID` from the request, install the resolved identifier in the
request context, write it into the `X-Request-ID` response header, and
invoke the wrapped handler with the enriched request. -/
def RequestIDMiddleware : Middleware := fun next => fun r w =>
  let requestID := headerGet r.headers xRequestIDName
  let ctxID := AddRequestID r.ridSeed requestID
  let requestID := if requestID = [] then ctxID else requestID
  let w := { w with headers := headerSet w.headers xRequestIDName requestID }
  next { r with ctxRequestID := ctxID } w

/-- `LoggingMiddleware()` from internal/proxy/middleware.go: wraps the
writer in a status-capturing shim that forwards `WriteHeader`/`Write`
unchanged and emits log records on entry and exit.  Log output is not
part of the observable response state, so the observable effect is that
of the wrapped handler. -/
def LoggingMiddleware : Middleware := fun next => fun r w => next r w

/-! ## Multi-scheme authentication (`MultiAuthMiddleware`)

The `auth` package (Authenticator, ChainAuthenticator and the two
constructors) is not under src/; only its caller is.  An authenticator is
modelled as a function from the request to an `AuthResult`, the two
constructors are abstract parameters, and the chain is modelled from the
spec. -/

/-- `auth.AuthResult`: validity, the credential kind attempted, and a
client-safe failure reason. -/
structure AuthResult where
  valid : Bool
  type : List Nat
  error : List Nat

/-- `auth.Authenticator`, as its observable validation behavior. -/
abbrev Authenticator := Request → AuthResult

/-- Modelled from the spec: `auth.ChainAuthenticator.Validate` (not under
src/) — "attempt authenticators in configured order; return the first
success; if all fail, return the last attempted failure's reason".  The
empty chain short-circuits to success (never reached from
`MultiAuthMiddleware`, which guards the empty case before building a
chain). -/
def chainValidate : List Authenticator → Request → AuthResult
  | [], _ => ⟨true, [], []⟩
  | [a], r => a r
  | a :: rest, r =>
    let result := a r
    if result.valid then result else chainValidate rest r

/-- `config.AuthConfig`, the fields `MultiAuthMiddleware` reads. -/
structure AuthConfig where
  allowBearer : Bool
  bearerSecret : List Nat
  apiKey : List Nat

/-- `MultiAuthMiddleware(authConfig)` from internal/proxy/middleware.go,
with the two authenticator constructors (`auth.NewBearerAuthenticator`,
`auth.NewAPIKeyAuthenticator`, not under src/) abstracted as parameters:
build the authenticator list from the config, return the identity
middleware when it is empty, and otherwise validate through the chain,
writing a 401 `authentication_error` on failure. -/
def MultiAuthMiddleware (bearerCtor apiKeyCtor : List Nat → Authenticator)
    (cfg : AuthConfig) : Middleware :=
  let authenticators :=
    (if cfg.allowBearer then [bearerCtor cfg.bearerSecret] else []) ++
    (if cfg.apiKey ≠ [] then [apiKeyCtor cfg.apiKey] else [])
  if authenticators.isEmpty then fun next => next
  else fun next => fun r w =>
    let result := chainValidate authenticators r
    if result.valid then next r w
    else WriteError w 401 authenticationErrorKind result.error

/-! ## Route dispatch (SetupRoutes)

The repository contains two versions of `SetupRoutes` in package proxy
(internal/proxy/routes.go and the file embedded here); this development
follows the version that applies the full middleware pipeline
(RequestID, then Logging, then Auth) to the messages route, which is the
one the specification describes.

The dispatcher models Go 1.22+ `http.ServeMux` restricted to the two
registered patterns `POST /v1/messages` and `GET /health`, for
non-CONNECT requests whose URL path is already in canonical (cleaned)
form — the mux would 301-redirect non-canonical paths before matching.
Per the `ServeMux` pattern rules, a pattern whose method is GET also
matches HEAD requests; a known path with a non-matching method receives
405 with body "Method Not Allowed\n", and an unregistered path receives
404 with body "404 page not found\n".  (The server-side stripping of
HEAD response bodies happens outside the handler and is not modelled.) -/

/-- `config.Config`, the field `SetupRoutes` reads
(`cfg.Server.APIKey`, the key clients must present to the proxy). -/
structure Config where
  serverAPIKey : List Nat

/-- The `GET /health` handler registered by `SetupRoutes`: write status
200 and the body `{"status":"ok"}`. -/
def healthHandler : Handler := fun _ w =>
  writeBytes (writeHeaderStatus w 200) (bytes "\x7b\"status\":\"ok\"\x7d")

/-- Go 1.22 `http.ServeMux` dispatch for the two registered routes (see
the section comment for the modelled fragment). -/
def serveMux (messagesHandler healthH : Handler) : Handler := fun r w =>
  if r.path = "/v1/messages" then
    if r.method = "POST" then messagesHandler r w
    else writeBytes (writeHeaderStatus w 405) (bytes "Method Not Allowed\n")
  else if r.path = "/health" then
    if r.method = "GET" ∨ r.method = "HEAD" then healthH r w
    else writeBytes (writeHeaderStatus w 405) (bytes "Method Not Allowed\n")
  else
    writeBytes (writeHeaderStatus w 404) (bytes "404 page not found\n")

/-- `SetupRoutes(cfg, provider, providerKey)`: the terminal proxy handler
built by `NewHandler` (excluded from the core as the network-relaying
collaborator) is abstracted as `terminal`; the SHA-256 digest used by
`AuthMiddleware` as `H`.  The messages handler is wrapped in
`AuthMiddleware` only when `cfg.Server.APIKey` is non-empty, then in
`LoggingMiddleware`, then in `RequestIDMiddleware`; the health handler is
registered standalone. -/
def SetupRoutes (H : List Nat → List Nat) (cfg : Config) (terminal : Handler) :
    Handler :=
  let messagesHandler :=
    if cfg.serverAPIKey = [] then terminal
    else AuthMiddleware H cfg.serverAPIKey terminal
  let messagesHandler := LoggingMiddleware messagesHandler
  let messagesHandler := RequestIDMiddleware messagesHandler
  serveMux messagesHandler healthHandler

/-! ## Provider adapters (internal/providers)

`ForwardHeaders` iterates the inbound header map, copies each entry whose
canonical key is at least 10 bytes long and whose first 10 bytes equal
"Anthropic-" (appending its values under the canonical key), and finally
sets `Content-Type: application/json`.  The map iteration is modelled as
a left fold over the association list.  `Authenticate` sets the
`x-api-key` request header to the key and returns `nil`; return values of
type `error` are modelled as `Option (List Nat)` with `none` for `nil`. -/

/-- The canonical prefix `"Anthropic-"` compared against by the code. -/
def anthropicCanonPrefix : List Nat := bytes "Anthropic-"

/-- One iteration of the `ForwardHeaders` copy loop. -/
def forwardHeadersStep (acc : HeaderMap) (e : List Nat × List (List Nat)) :
    HeaderMap :=
  let canonicalKey := canonicalHeaderKey e.1
  if 10 ≤ canonicalKey.length ∧ canonicalKey.take 10 = anthropicCanonPrefix then
    appendValues acc canonicalKey e.2
  else acc

/-- `AnthropicProvider.ForwardHeaders` from internal/providers/anthropic.go. -/
def anthropicForwardHeaders (originalHeaders : HeaderMap) : HeaderMap :=
  let headers := originalHeaders.foldl forwardHeadersStep []
  headerSet headers (bytes "Content-Type") (bytes "application/json")

/-- `ZAIProvider.ForwardHeaders` from internal/providers/zai.go (the
source duplicates the Anthropic loop verbatim). -/
def zaiForwardHeaders (originalHeaders : HeaderMap) : HeaderMap :=
  let headers := originalHeaders.foldl forwardHeadersStep []
  headerSet headers (bytes "Content-Type") (bytes "application/json")

/-- `AnthropicProvider.Authenticate`: set the `x-api-key` request header
to the key; return `nil`. -/
def anthropicAuthenticate (reqHeaders : HeaderMap) (key : List Nat) :
    HeaderMap × Option (List Nat) :=
  (headerSet reqHeaders xApiKeyName key, none)

/-- `ZAIProvider.Authenticate`: identical to the Anthropic variant. -/
def zaiAuthenticate (reqHeaders : HeaderMap) (key : List Nat) :
    HeaderMap × Option (List Nat) :=
  (headerSet reqHeaders xApiKeyName key, none)

/-- `AnthropicProvider.SupportsStreaming`. -/
def anthropicSupportsStreaming : Bool := true

/-- `ZAIProvider.SupportsStreaming`. -/
def zaiSupportsStreaming : Bool := true

/-- Specification-side description of `forward_headers`, following the
spec text for comparison with the code-derived definition: keep exactly
the entries whose name matches the prefix "anthropic-" case-insensitively
(with their original values), then set the provider-mandated
`Content-Type: application/json`, overwriting any client-supplied
value. -/
def matchesAnthropicPrefixCI (k : List Nat) : Bool :=
  decide (10 ≤ k.length) && (k.map lowerByte).take 10 == bytes "anthropic-"

/-- Specification-side `forward_headers` (see
`matchesAnthropicPrefixCI`). -/
def forwardHeadersSpec (originalHeaders : HeaderMap) : HeaderMap :=
  headerSet (originalHeaders.filter (fun e => matchesAnthropicPrefixCI e.1))
    (bytes "Content-Type") (bytes "application/json")

/-! ## Streaming detection (`IsStreamingRequest`)

`IsStreamingRequest` unmarshals the body into `map[string]interface{}`
with `encoding/json` and reports whether the `"stream"` entry is a
boolean `true`.  The relevant fragment of `encoding/json` is embedded: a
strict RFC-8259 value grammar with Go's whitespace set, strict number
syntax (no leading zeros, no bare fraction or exponent), string escapes
(`\uXXXX` decoded to the UTF-8 bytes of the code unit; Go's pairing of
UTF-16 surrogates and replacement of invalid UTF-8 only changes the bytes
of non-ASCII decoded strings and never produces the ASCII key "stream", so
it is not modelled further), rejection of raw control bytes in strings,
last-wins duplicate object keys (map assignment), rejection of trailing
non-whitespace, and `null` unmarshalling into a nil map.  Numbers are
kept as their literal bytes — their numeric value is never inspected.
The recursion is fueled; the top-level call supplies `length + 1` fuel,
which suffices because every recursive call consumes at least one byte
first. -/

/-- A decoded `interface{}` value. -/
inductive JValue where
  | null : JValue
  | bool (b : Bool) : JValue
  | num (lit : List Nat) : JValue
  | str (s : List Nat) : JValue
  | arr (elems : List JValue) : JValue
  | obj (fields : List (List Nat × JValue)) : JValue

/-- Skip JSON whitespace (space, tab, newline, carriage return). -/
def skipWS : List Nat → List Nat
  | [] => []
  | b :: bs => if b = 32 ∨ b = 9 ∨ b = 10 ∨ b = 13 then skipWS bs else b :: bs

/-- Value of a hexadecimal digit byte. -/
def hexVal (b : Nat) : Option Nat :=
  if 48 ≤ b ∧ b ≤ 57 then some (b - 48)
  else if 65 ≤ b ∧ b ≤ 70 then some (b - 55)
  else if 97 ≤ b ∧ b ≤ 102 then some (b - 87)
  else none

/-- UTF-8 encoding of a code point. -/
def utf8Encode (c : Nat) : List Nat :=
  if c < 128 then [c]
  else if c < 2048 then [192 + c / 64, 128 + c % 64]
  else if c < 65536 then [224 + c / 4096, 128 + c / 64 % 64, 128 + c % 64]
  else [240 + c / 262144, 128 + c / 4096 % 64, 128 + c / 64 % 64, 128 + c % 64]

/-- Parse the remainder of a JSON string after the opening quote:
returns the decoded bytes and the input after the closing quote.  Raw
bytes below 0x20 are rejected; `\uXXXX` escapes decode to the UTF-8 bytes
of the code unit. -/
def parseStringRest : Nat → List Nat → Option (List Nat × List Nat)
  | 0, _ => none
  | _ + 1, [] => none
  | fuel + 1, b :: rest =>
    if b = 34 then some ([], rest)
    else if b = 92 then
      match rest with
      | 34 :: r => (parseStringRest fuel r).map (fun p => (34 :: p.1, p.2))
      | 92 :: r => (parseStringRest fuel r).map (fun p => (92 :: p.1, p.2))
      | 47 :: r => (parseStringRest fuel r).map (fun p => (47 :: p.1, p.2))
      | 98 :: r => (parseStringRest fuel r).map (fun p => (8 :: p.1, p.2))
      | 102 :: r => (parseStringRest fuel r).map (fun p => (12 :: p.1, p.2))
      | 110 :: r => (parseStringRest fuel r).map (fun p => (10 :: p.1, p.2))
      | 114 :: r => (parseStringRest fuel r).map (fun p => (13 :: p.1, p.2))
      | 116 :: r => (parseStringRest fuel r).map (fun p => (9 :: p.1, p.2))
      | 117 :: h1 :: h2 :: h3 :: h4 :: r =>
        match hexVal h1, hexVal h2, hexVal h3, hexVal h4 with
        | some a, some b2, some c, some d =>
          (parseStringRest fuel r).map
            (fun p => (utf8Encode (a * 4096 + b2 * 256 + c * 16 + d) ++ p.1, p.2))
        | _, _, _, _ => none
      | _ => none
    else if b < 32 then none
    else (parseStringRest fuel rest).map (fun p => (b :: p.1, p.2))

/-- Take a maximal run of decimal digit bytes. -/
def takeDigits : List Nat → List Nat × List Nat
  | [] => ([], [])
  | b :: r =>
    if 48 ≤ b ∧ b ≤ 57 then
      let p := takeDigits r
      (b :: p.1, p.2)
    else ([], b :: r)

/-- The integer part of a JSON number: `0` (not followed by a digit) or a
non-zero digit followed by digits. -/
def parseIntPart : List Nat → Option (List Nat × List Nat)
  | [] => none
  | b :: r =>
    if b = 48 then
      match r with
      | c :: _ => if 48 ≤ c ∧ c ≤ 57 then none else some ([48], r)
      | [] => some ([48], [])
    else if 49 ≤ b ∧ b ≤ 57 then
      let p := takeDigits r
      some (b :: p.1, p.2)
    else none

/-- Optional fraction part: `.` requires at least one digit. -/
def parseFracOpt : List Nat → Option (List Nat × List Nat)
  | 46 :: r =>
    match takeDigits r with
    | ([], _) => none
    | (ds, rest) => some (46 :: ds, rest)
  | r => some ([], r)

/-- Optional exponent part: `e`/`E`, optional sign, at least one digit. -/
def parseExpOpt : List Nat → Option (List Nat × List Nat)
  | [] => some ([], [])
  | b :: r =>
    if b = 101 ∨ b = 69 then
      let signed : List Nat × List Nat :=
        match r with
        | 43 :: rr => ([43], rr)
        | 45 :: rr => ([45], rr)
        | rr => ([], rr)
      match takeDigits signed.2 with
      | ([], _) => none
      | (ds, rest) => some (b :: (signed.1 ++ ds), rest)
    else some ([], b :: r)

/-- Parse a JSON number, keeping its literal bytes. -/
def parseNumber (input : List Nat) : Option (JValue × List Nat) :=
  let signed : List Nat × List Nat :=
    match input with
    | 45 :: r => ([45], r)
    | r => ([], r)
  match parseIntPart signed.2 with
  | none => none
  | some (ip, r1) =>
    match parseFracOpt r1 with
    | none => none
    | some (fp, r2) =>
      match parseExpOpt r2 with
      | none => none
      | some (ep, r3) => some (JValue.num (signed.1 ++ ip ++ fp ++ ep), r3)

/-- Match a literal byte suffix (the tails of `true`/`false`/`null`). -/
def stripLit (lit : List Nat) (input : List Nat) (v : JValue) :
    Option (JValue × List Nat) :=
  if input.take lit.length = lit then some (v, input.drop lit.length) else none

/-- Go map assignment `m[k] = v`: replace the value of an existing key,
or append a new entry (duplicate object keys: last wins). -/
def mapInsert (m : List (List Nat × JValue)) (k : List Nat) (v : JValue) :
    List (List Nat × JValue) :=
  if m.any (fun e => e.1 == k) then
    m.map (fun e => if e.1 == k then (k, v) else e)
  else m ++ [(k, v)]

mutual

/-- Parse one JSON value (after skipping leading whitespace), returning
the value and the unconsumed input. -/
def parseValue : Nat → List Nat → Option (JValue × List Nat)
  | 0, _ => none
  | fuel + 1, input =>
    match skipWS input with
    | [] => none
    | b :: r =>
      if b = 123 then
        match skipWS r with
        | 125 :: r2 => some (JValue.obj [], r2)
        | r1 => parseMembers fuel r1 []
      else if b = 91 then
        match skipWS r with
        | 93 :: r2 => some (JValue.arr [], r2)
        | r1 => parseElems fuel r1 []
      else if b = 34 then
        (parseStringRest (r.length + 1) r).map (fun p => (JValue.str p.1, p.2))
      else if b = 116 then stripLit (bytes "rue") r (JValue.bool true)
      else if b = 102 then stripLit (bytes "alse") r (JValue.bool false)
      else if b = 110 then stripLit (bytes "ull") r JValue.null
      else parseNumber (b :: r)

/-- Parse the members of an object from the first key onward,
accumulating the decoded map. -/
def parseMembers (fuel : Nat) (input : List Nat)
    (acc : List (List Nat × JValue)) : Option (JValue × List Nat) :=
  match fuel with
  | 0 => none
  | fuel + 1 =>
    match input with
    | 34 :: r =>
      match parseStringRest (r.length + 1) r with
      | none => none
      | some (key, r2) =>
        match skipWS r2 with
        | 58 :: r3 =>
          match parseValue fuel r3 with
          | none => none
          | some (v, r4) =>
            match skipWS r4 with
            | 44 :: r5 => parseMembers fuel (skipWS r5) (mapInsert acc key v)
            | 125 :: r5 => some (JValue.obj (mapInsert acc key v), r5)
            | _ => none
        | _ => none
    | _ => none

/-- Parse the elements of an array from the first element onward. -/
def parseElems (fuel : Nat) (input : List Nat) (acc : List JValue) :
    Option (JValue × List Nat) :=
  match fuel with
  | 0 => none
  | fuel + 1 =>
    match parseValue fuel input with
    | none => none
    | some (v, r) =>
      match skipWS r with
      | 44 :: r2 => parseElems fuel r2 (acc ++ [v])
      | 93 :: r2 => some (JValue.arr (acc ++ [v]), r2)
      | _ => none

end

/-- `json.Unmarshal(body, &req)` for `req : map[string]interface{}`:
parse one value, reject trailing non-whitespace, and accept only an
object (or `null`, which leaves the map nil). -/
def goUnmarshalMap (body : List Nat) :
    Option (List (List Nat × JValue)) :=
  match parseValue (body.length + 1) body with
  | none => none
  | some (v, rest) =>
    if skipWS rest ≠ [] then none
    else
      match v with
      | JValue.obj fields => some fields
      | JValue.null => some []
      | _ => none

/-- Lookup in the decoded map. -/
def mapFind (m : List (List Nat × JValue)) (k : List Nat) : Option JValue :=
  (m.find? (fun e => e.1 == k)).map (fun e => e.2)

/-- The `"stream"` key. -/
def streamKey : List Nat := bytes "stream"

/-- `IsStreamingRequest(body)` from internal/proxy (src/unnamed/part_002):
unmarshal into a map, then `stream, ok := req["stream"].(bool);
return ok && stream`. -/
def IsStreamingRequest (body : List Nat) : Bool :=
  match goUnmarshalMap body with
  | none => false
  | some req =>
    match mapFind req streamKey with
    | some (JValue.bool b) => b
    | _ => false

/-! ## Observation helpers and test fixtures -/

/-- The machine-readable kind of a structured error response, if any. -/
def errorKindOf (w : ResponseWriter) : Option (List Nat) :=
  match w.body with
  | RespBody.errObj k _ => some k
  | _ => none

/-- The human-readable message of a structured error response, if any. -/
def errorMessageOf (w : ResponseWriter) : Option (List Nat) :=
  match w.body with
  | RespBody.errObj _ m => some m
  | _ => none

/-- Flip bit `i` of a byte sequence (bit `i % 8` of byte `i / 8`). -/
def flipBit (s : List Nat) (i : Nat) : List Nat :=
  s.set (i / 8) ((s.getD (i / 8) 0) ^^^ 2 ^ (i % 8))

/-- A concrete terminal handler used to instantiate theorems: it leaves
the writer untouched. -/
def idHandler : Handler := fun _ w => w

/-- Build a concrete request. -/
def mkReq (m p : String) (h : HeaderMap) : Request :=
  { method := m, path := p, headers := h, body := [] }

/-! ## Helper lemmas -/

lemma setAssoc_find_self (h : HeaderMap) (k : List Nat) (vs : List (List Nat)) :
    (setAssoc h k vs).find? (fun e => e.1 == k) = some (k, vs) := by
  induction h with
  | nil => simp [setAssoc]
  | cons e rest ih =>
    by_cases he : e.1 = k
    · simp [setAssoc, he]
    · have hbeq : (e.1 == k) = false := by simpa using he
      simp only [setAssoc]
      rw [if_neg (by simp [hbeq]), List.find?_cons_of_neg _ (by simp [hbeq])]
      exact ih

lemma headerGet_headerSet_self (h : HeaderMap) (k v : List Nat) :
    headerGet (headerSet h k v) k = v := by
  unfold headerGet headerSet
  rw [setAssoc_find_self]

lemma writeError_headers (w : ResponseWriter) (s : Nat) (k m : List Nat) :
    (WriteError w s k m).headers = w.headers := by
  unfold WriteError writeHeaderStatus
  cases w.status <;> rfl

lemma writeBytes_headers (w : ResponseWriter) (bs : List Nat) :
    (writeBytes w bs).headers = w.headers := by
  unfold writeBytes writeHeaderStatus
  cases hs : w.status <;> cases hb : w.body <;> simp [hb]

lemma writeHeaderStatus_headers (w : ResponseWriter) (s : Nat) :
    (writeHeaderStatus w s).headers = w.headers := by
  unfold writeHeaderStatus
  cases w.status <;> rfl

lemma generateRequestID_injective (s1 s2 : Nat) (h : s1 ≠ s2) :
    generateRequestID s1 ≠ generateRequestID s2 := by
  intro heq
  have := congrArg List.length heq
  simp [generateRequestID] at this
  exact h this

lemma addRequestID_ne_nil (seed : Nat) (x : List Nat) :
    AddRequestID seed x ≠ [] := by
  unfold AddRequestID
  split
  · simp [generateRequestID]
  · assumption

/-! ## C10: provider interchangeability -/

/-- C10: the Anthropic and Z.AI provider adapters are behaviorally
interchangeable apart from identity: `ForwardHeaders` agree on every
header collection, both `Authenticate` implementations set the
`x-api-key` request header to the key and return no error, and both
`SupportsStreaming` return true. -/
theorem providers_interchangeable :
    (∀ h : HeaderMap, anthropicForwardHeaders h = zaiForwardHeaders h) ∧
    (∀ (h : HeaderMap) (k : List Nat),
      anthropicAuthenticate h k = zaiAuthenticate h k ∧
      (anthropicAuthenticate h k).2 = none ∧
      headerGet (anthropicAuthenticate h k).1 xApiKeyName = k ∧
      (zaiAuthenticate h k).2 = none ∧
      headerGet (zaiAuthenticate h k).1 xApiKeyName = k) ∧
    anthropicSupportsStreaming = true ∧ zaiSupportsStreaming = true := by
  refine ⟨fun h => rfl, fun h k => ⟨rfl, rfl, ?_, rfl, ?_⟩, rfl, rfl⟩ <;>
    exact headerGet_headerSet_self h xApiKeyName k

/-! ## C2: streaming detection -/

lemma is_streaming_request_iff (body : List Nat) :
    IsStreamingRequest body = true ↔
      ∃ fields, goUnmarshalMap body = some fields ∧
        mapFind fields streamKey = some (JValue.bool true) := by
  rcases hu : goUnmarshalMap body with _ | fields
  · simp [IsStreamingRequest, hu]
  · rcases hf : mapFind fields streamKey with _ | v
    · simp [IsStreamingRequest, hu, hf]
    · rcases v with _ | b | lit | s | xs | fs <;> simp [IsStreamingRequest, hu, hf]

/-- C2: `IsStreamingRequest(body)` returns true iff the body unmarshals
(under the embedded `encoding/json` semantics) as a JSON object whose
`"stream"` field is present and strictly boolean `true`; every parse
failure, missing field, or non-boolean value yields false (the function
is total and never signals an error), as checked on the spec's vectors. -/
theorem is_streaming_request_correct :
    (∀ body, IsStreamingRequest body = true ↔
      ∃ fields, goUnmarshalMap body = some fields ∧
        mapFind fields streamKey = some (JValue.bool true)) ∧
    IsStreamingRequest (bytes "\x7b\"stream\": true\x7d") = true ∧
    IsStreamingRequest (bytes "\x7b\x7d") = false ∧
    IsStreamingRequest (bytes "\x7b\"stream\": false\x7d") = false ∧
    IsStreamingRequest (bytes "\x7b\"stream\": \"true\"\x7d") = false ∧
    IsStreamingRequest (bytes "not json") = false :=
  ⟨is_streaming_request_iff, by decide, by decide, by decide, by decide, by decide⟩

/-! ## C5: middleware composition order -/

/-- C5: on the `POST /v1/messages` route the dispatcher built by
`SetupRoutes` is exactly the composition RequestID outermost, then
Logging, then (when an API key is configured) Auth innermost around the
terminal handler. -/
theorem setup_routes_middleware_order (H : List Nat → List Nat) (cfg : Config)
    (terminal : Handler) (r : Request) (w : ResponseWriter)
    (hm : r.method = "POST") (hp : r.path = "/v1/messages") :
    SetupRoutes H cfg terminal r w =
      RequestIDMiddleware (LoggingMiddleware
        (if cfg.serverAPIKey = [] then terminal
         else AuthMiddleware H cfg.serverAPIKey terminal)) r w := by
  simp [SetupRoutes, serveMux, hm, hp]

/-- Witness for C5 at a concrete configured request. -/
theorem setup_routes_middleware_order_witness :
    SetupRoutes id ⟨bytes "test-key"⟩ idHandler
        (mkReq "POST" "/v1/messages" []) emptyRW =
      RequestIDMiddleware (LoggingMiddleware
        (if (bytes "test-key" = ([] : List Nat)) then idHandler
         else AuthMiddleware id (bytes "test-key") idHandler))
        (mkReq "POST" "/v1/messages" []) emptyRW :=
  setup_routes_middleware_order id ⟨bytes "test-key"⟩ idHandler
    (mkReq "POST" "/v1/messages" []) emptyRW rfl rfl

/-! ## C6: auth disabled means no auth decorator -/

/-- C6: when no credential scheme is configured, `MultiAuthMiddleware`
returns the identity middleware (no decorator that always passes, just
`next`), `SetupRoutes` wires the messages route without any Auth
decorator, and every `POST /v1/messages` request reaches the terminal
handler — regardless of which credential headers it carries. -/
theorem no_auth_configured_passthrough
    (bearerCtor apiKeyCtor : List Nat → Authenticator) (cfg : AuthConfig)
    (hb : cfg.allowBearer = false) (hk : cfg.apiKey = [])
    (H : List Nat → List Nat) (scfg : Config) (hs : scfg.serverAPIKey = [])
    (terminal : Handler) (r : Request) (w : ResponseWriter)
    (hm : r.method = "POST") (hp : r.path = "/v1/messages") :
    (∀ next, MultiAuthMiddleware bearerCtor apiKeyCtor cfg next = next) ∧
    SetupRoutes H scfg terminal r w =
      RequestIDMiddleware (LoggingMiddleware terminal) r w ∧
    ∃ r' w', SetupRoutes H scfg terminal r w = terminal r' w' := by
  have h2 : SetupRoutes H scfg terminal r w =
      RequestIDMiddleware (LoggingMiddleware terminal) r w := by
    simp [SetupRoutes, serveMux, hm, hp, hs]
  refine ⟨fun next => ?_, h2, ?_⟩
  · simp [MultiAuthMiddleware, hb, hk]
  · rw [h2]
    exact ⟨_, _, rfl⟩

/-- Witness for C6 at a concrete request carrying a (wrong) credential
header: the terminal handler is still reached. -/
theorem no_auth_configured_passthrough_witness :
    (∀ next, MultiAuthMiddleware (fun s _ => ⟨false, [], s⟩)
        (fun s _ => ⟨false, [], s⟩) ⟨false, [], []⟩ next = next) ∧
    SetupRoutes id ⟨[]⟩ idHandler
        (mkReq "POST" "/v1/messages" [(bytes "X-Api-Key", [bytes "whatever"])])
        emptyRW =
      RequestIDMiddleware (LoggingMiddleware idHandler)
        (mkReq "POST" "/v1/messages" [(bytes "X-Api-Key", [bytes "whatever"])])
        emptyRW ∧
    ∃ r' w', SetupRoutes id ⟨[]⟩ idHandler
        (mkReq "POST" "/v1/messages" [(bytes "X-Api-Key", [bytes "whatever"])])
        emptyRW = idHandler r' w' :=
  no_auth_configured_passthrough (fun s _ => ⟨false, [], s⟩)
    (fun s _ => ⟨false, [], s⟩) ⟨false, [], []⟩ rfl rfl id ⟨[]⟩ rfl idHandler
    (mkReq "POST" "/v1/messages" [(bytes "X-Api-Key", [bytes "whatever"])])
    emptyRW rfl rfl

/-! ## C8: RequestID middleware -/

/-- C8: the RequestID middleware propagates a non-empty inbound
`X-Request-ID` value verbatim into the response header, writes a freshly
generated non-empty identifier when the header is absent, and requests
with distinct generation entropy never receive the same generated
value. -/
theorem request_id_middleware_correct (next : Handler) (r : Request)
    (w : ResponseWriter) :
    (∀ v, headerGet r.headers xRequestIDName = v → v ≠ [] →
      RequestIDMiddleware next r w =
        next { r with ctxRequestID := v }
          { w with headers := headerSet w.headers xRequestIDName v } ∧
      headerGet (headerSet w.headers xRequestIDName v) xRequestIDName = v) ∧
    (headerGet r.headers xRequestIDName = [] →
      RequestIDMiddleware next r w =
        next { r with ctxRequestID := generateRequestID r.ridSeed }
          { w with headers :=
              headerSet w.headers xRequestIDName (generateRequestID r.ridSeed) } ∧
      generateRequestID r.ridSeed ≠ [] ∧
      headerGet
          (headerSet w.headers xRequestIDName (generateRequestID r.ridSeed))
          xRequestIDName = generateRequestID r.ridSeed) ∧
    (∀ s1 s2 : Nat, s1 ≠ s2 →
      generateRequestID s1 ≠ generateRequestID s2) := by
  refine ⟨?_, ?_, generateRequestID_injective⟩
  · intro v hv hne
    exact ⟨by simp [RequestIDMiddleware, AddRequestID, hv, hne],
      headerGet_headerSet_self w.headers xRequestIDName v⟩
  · intro h0
    exact ⟨by simp [RequestIDMiddleware, AddRequestID, h0],
      by simp [generateRequestID],
      headerGet_headerSet_self w.headers xRequestIDName
        (generateRequestID r.ridSeed)⟩

/-- A concrete request carrying `X-Request-ID: abc123` (stored under the
canonical key, as Go's request parsing does). -/
def reqWithID : Request :=
  mkReq "POST" "/v1/messages" [(bytes "X-Request-Id", [bytes "abc123"])]

/-- A concrete request without an `X-Request-ID` header. -/
def reqNoID : Request := mkReq "POST" "/v1/messages" []

/-- Witness for C8: the middleware echoes `abc123`, mints a non-empty
identifier otherwise, and seeds 0 and 1 yield distinct identifiers. -/
theorem request_id_middleware_correct_witness :
    (RequestIDMiddleware idHandler reqWithID emptyRW =
      idHandler { reqWithID with ctxRequestID := bytes "abc123" }
        { emptyRW with
            headers := headerSet emptyRW.headers xRequestIDName (bytes "abc123") } ∧
     headerGet (headerSet emptyRW.headers xRequestIDName (bytes "abc123"))
        xRequestIDName = bytes "abc123") ∧
    (RequestIDMiddleware idHandler reqNoID emptyRW =
      idHandler { reqNoID with ctxRequestID := generateRequestID reqNoID.ridSeed }
        { emptyRW with
            headers := headerSet emptyRW.headers xRequestIDName
              (generateRequestID reqNoID.ridSeed) } ∧
     generateRequestID reqNoID.ridSeed ≠ [] ∧
     headerGet
        (headerSet emptyRW.headers xRequestIDName
          (generateRequestID reqNoID.ridSeed)) xRequestIDName =
        generateRequestID reqNoID.ridSeed) ∧
    generateRequestID 0 ≠ generateRequestID 1 :=
  ⟨(request_id_middleware_correct idHandler reqWithID emptyRW).1
      (bytes "abc123") (by decide) (by decide),
   (request_id_middleware_correct idHandler reqNoID emptyRW).2.1 (by decide),
   (request_id_middleware_correct idHandler reqNoID emptyRW).2.2 0 1
      (by decide)⟩

/-! ## C7: missing vs invalid credential — messages (corrected)

The code path in `AuthMiddleware` writes the message
"missing x-api-key header" when the header is absent and
"invalid x-api-key" when the provided key differs, so the client-visible
message does distinguish the two failures (the status and machine-readable
kind are identical). -/

/-- A concrete request with no `x-api-key` header. -/
def reqMissingKey : Request := mkReq "POST" "/v1/messages" []

/-- A concrete request with a wrong `x-api-key` value (stored under the
canonical key, as Go's request parsing does). -/
def reqWrongKey : Request :=
  mkReq "POST" "/v1/messages" [(bytes "X-Api-Key", [bytes "wrong"])]

/-- C7 counterexample: at the configured secret "test-key", a request
missing the header and a request with a wrong key both yield 401 with
kind `authentication_error`, but the client-visible messages differ, so
the response is not "the same generic statement".  (The digest function
is instantiated with `id`, which agrees with SHA-256 here: the two
compared inputs are distinct, hence so are their digests.) -/
theorem auth_error_messages_counterexample :
    (AuthMiddleware id (bytes "test-key") idHandler reqMissingKey emptyRW).status
        = some 401 ∧
    errorKindOf
        (AuthMiddleware id (bytes "test-key") idHandler reqMissingKey emptyRW)
        = some authenticationErrorKind ∧
    (AuthMiddleware id (bytes "test-key") idHandler reqWrongKey emptyRW).status
        = some 401 ∧
    errorKindOf
        (AuthMiddleware id (bytes "test-key") idHandler reqWrongKey emptyRW)
        = some authenticationErrorKind ∧
    errorMessageOf
        (AuthMiddleware id (bytes "test-key") idHandler reqMissingKey emptyRW) ≠
      errorMessageOf
        (AuthMiddleware id (bytes "test-key") idHandler reqWrongKey emptyRW) := by
  decide

/-- C7 amended: every authentication failure yields 401 with the
machine-readable kind `authentication_error`, but the client-visible
message distinguishes the absent-header case ("missing x-api-key header")
from the wrong-value case ("invalid x-api-key"). -/
theorem auth_error_messages_distinct (H : List Nat → List Nat)
    (secret : List Nat) (hinj : ∀ a b, H a = H b → a = b)
    (next : Handler) (r1 r2 : Request) (w1 w2 : ResponseWriter)
    (h1 : headerGet r1.headers xApiKeyName = [])
    (h2p : headerGet r2.headers xApiKeyName ≠ [])
    (h2s : headerGet r2.headers xApiKeyName ≠ secret) :
    AuthMiddleware H secret next r1 w1 =
      WriteError w1 401 authenticationErrorKind (bytes "missing x-api-key header") ∧
    AuthMiddleware H secret next r2 w2 =
      WriteError w2 401 authenticationErrorKind (bytes "invalid x-api-key") ∧
    bytes "missing x-api-key header" ≠ bytes "invalid x-api-key" := by
  refine ⟨by simp [AuthMiddleware, h1], ?_, by decide⟩
  have hH : H (headerGet r2.headers xApiKeyName) ≠ H secret :=
    fun he => h2s (hinj _ _ he)
  simp [AuthMiddleware, h2p, hH]

/-- Witness for the amended C7 at the two concrete requests. -/
theorem auth_error_messages_distinct_witness :
    AuthMiddleware id (bytes "test-key") idHandler reqMissingKey emptyRW =
      WriteError emptyRW 401 authenticationErrorKind
        (bytes "missing x-api-key header") ∧
    AuthMiddleware id (bytes "test-key") idHandler reqWrongKey emptyRW =
      WriteError emptyRW 401 authenticationErrorKind (bytes "invalid x-api-key") ∧
    bytes "missing x-api-key header" ≠ bytes "invalid x-api-key" :=
  auth_error_messages_distinct id (bytes "test-key") (fun a b h => h)
    idHandler reqMissingKey reqWrongKey emptyRW emptyRW
    (by decide) (by decide) (by decide)

/-! ## C1: AuthMiddleware gate -/

lemma flipBit_ne (s : List Nat) (i : Nat) (h : i < 8 * s.length) :
    flipBit s i ≠ s := by
  intro heq
  have hj : i / 8 < s.length := Nat.div_lt_of_lt_mul h
  have h1 : (flipBit s i)[i / 8]? = s[i / 8]? := by rw [heq]
  have hget : s[i / 8]? = some (s.get ⟨i / 8, hj⟩) := by
    rw [List.getElem?_eq_getElem hj]
    rfl
  rw [show flipBit s i
        = s.set (i / 8) ((s.getD (i / 8) 0) ^^^ 2 ^ (i % 8)) from rfl,
    List.getElem?_set_self hj, hget] at h1
  have hg : s.getD (i / 8) 0 = s.get ⟨i / 8, hj⟩ := by
    rw [List.getD_eq_getElem?_getD, hget]
    rfl
  rw [hg] at h1
  have h2 : (s.get ⟨i / 8, hj⟩) ^^^ 2 ^ (i % 8) = s.get ⟨i / 8, hj⟩ :=
    Option.some.inj h1
  have h4 : ((s.get ⟨i / 8, hj⟩) ^^^ 2 ^ (i % 8)) ^^^ s.get ⟨i / 8, hj⟩
      = 2 ^ (i % 8) := by
    rw [Nat.xor_comm (s.get ⟨i / 8, hj⟩) (2 ^ (i % 8)), Nat.xor_assoc,
      Nat.xor_self, Nat.xor_zero]
  rw [h2, Nat.xor_self] at h4
  have := Nat.two_pow_pos (i % 8)
  omega

lemma flipBit_ne_nil (s : List Nat) (i : Nat) (h : s ≠ []) :
    flipBit s i ≠ [] := by
  intro heq
  have := congrArg List.length heq
  simp [flipBit] at this
  exact h this

/-- C1: when an API key is configured (non-empty secret), the auth
middleware invokes the wrapped handler unchanged exactly when the
request's `x-api-key` header equals the secret; an absent or differing
header yields a 401 `authentication_error` written independently of the
wrapped handler, and in particular every single-bit mutation of the
secret is rejected.  The SHA-256 digest is abstracted as `H`; the
hypothesis `hinj` is the collision-freeness the code's digest comparison
relies on. -/
theorem auth_middleware_correct (H : List Nat → List Nat) (secret : List Nat)
    (hinj : ∀ a b, H a = H b → a = b) (hne : secret ≠ [])
    (next : Handler) (r : Request) (w : ResponseWriter) :
    (headerGet r.headers xApiKeyName = secret →
      AuthMiddleware H secret next r w = next r w) ∧
    (headerGet r.headers xApiKeyName ≠ secret →
      AuthMiddleware H secret next r w =
        WriteError w 401 authenticationErrorKind
          (if headerGet r.headers xApiKeyName = []
           then bytes "missing x-api-key header"
           else bytes "invalid x-api-key") ∧
      (w.status = none →
        (AuthMiddleware H secret next r w).status = some 401 ∧
        errorKindOf (AuthMiddleware H secret next r w) =
          some authenticationErrorKind)) ∧
    (∀ i, i < 8 * secret.length →
      headerGet r.headers xApiKeyName = flipBit secret i →
      AuthMiddleware H secret next r w =
        WriteError w 401 authenticationErrorKind (bytes "invalid x-api-key")) := by
  refine ⟨?_, ?_, ?_⟩
  · intro hv
    simp [AuthMiddleware, hv, hne]
  · intro hv
    by_cases hp : headerGet r.headers xApiKeyName = []
    · have heq : AuthMiddleware H secret next r w =
          WriteError w 401 authenticationErrorKind
            (bytes "missing x-api-key header") := by
        simp [AuthMiddleware, hp]
      refine ⟨by simp [heq, hp], fun hw => ?_⟩
      rw [heq]
      simp [WriteError, writeHeaderStatus, errorKindOf, hw]
    · have hH : H (headerGet r.headers xApiKeyName) ≠ H secret :=
        fun he => hv (hinj _ _ he)
      have heq : AuthMiddleware H secret next r w =
          WriteError w 401 authenticationErrorKind (bytes "invalid x-api-key") := by
        simp [AuthMiddleware, hp, hH]
      refine ⟨by simp [heq, hp], fun hw => ?_⟩
      rw [heq]
      simp [WriteError, writeHeaderStatus, errorKindOf, hw]
  · intro i hi hflip
    have hp : headerGet r.headers xApiKeyName ≠ [] := by
      rw [hflip]
      exact flipBit_ne_nil secret i hne
    have hv : headerGet r.headers xApiKeyName ≠ secret := by
      rw [hflip]
      exact flipBit_ne secret i hi
    have hH : H (headerGet r.headers xApiKeyName) ≠ H secret :=
      fun he => hv (hinj _ _ he)
    simp [AuthMiddleware, hp, hH]

/-- A concrete request presenting the correct secret "test-key". -/
def reqRightKey : Request :=
  mkReq "POST" "/v1/messages" [(bytes "X-Api-Key", [bytes "test-key"])]

/-- A concrete request presenting the secret with its lowest bit flipped
("uest-key": byte 0 of "test-key", bit 0). -/
def reqFlippedKey : Request :=
  mkReq "POST" "/v1/messages" [(bytes "X-Api-Key", [flipBit (bytes "test-key") 0])]

/-- Witness for C1: the correct key passes to the wrapped handler, and
the single-bit mutation at bit 0 is rejected with 401. -/
theorem auth_middleware_correct_witness :
    (AuthMiddleware id (bytes "test-key") idHandler reqRightKey emptyRW =
      idHandler reqRightKey emptyRW) ∧
    (AuthMiddleware id (bytes "test-key") idHandler reqFlippedKey emptyRW =
      WriteError emptyRW 401 authenticationErrorKind (bytes "invalid x-api-key")) :=
  ⟨(auth_middleware_correct id (bytes "test-key") (fun a b h => h) (by decide)
      idHandler reqRightKey emptyRW).1 (by decide),
   (auth_middleware_correct id (bytes "test-key") (fun a b h => h) (by decide)
      idHandler reqFlippedKey emptyRW).2.2 0 (by decide) (by decide)⟩

/-! ## C9: dispatcher outcomes (corrected)

Go 1.22 `ServeMux` serves HEAD requests with handlers registered under
GET patterns, so `HEAD /health` is answered by the health handler with
200 rather than 405; every other non-registered method on a known path
gets 405, unknown paths get 404, and `GET /health` returns 200 with the
fixed body for every auth configuration and header set. -/

/-- C9 counterexample: `HEAD` is not a registered method for `/health`
(only `GET` is), yet the dispatcher answers 200, not 405. -/
theorem dispatcher_head_health_counterexample :
    ("HEAD" : String) ≠ "GET" ∧ ("HEAD" : String) ≠ "POST" ∧
    (SetupRoutes id ⟨bytes "test-key"⟩ idHandler
        (mkReq "HEAD" "/health" []) emptyRW).status = some 200 ∧
    (200 : Nat) ≠ 405 := by
  decide

/-- C9 amended: for every auth configuration and header set, the
dispatcher returns 200 with exact body `{"status":"ok"}` for `GET
/health` (and for `HEAD /health`, which the mux serves with the GET
handler); 405 for a known path with a non-registered method other than
HEAD-on-a-GET-route; and 404 for every unregistered path — 404 and 405
are distinct outcomes. -/
theorem dispatcher_outcomes (H : List Nat → List Nat) (cfg : Config)
    (terminal : Handler) (r : Request) (w : ResponseWriter)
    (hst : w.status = none) (hbd : w.body = RespBody.empty) :
    (r.path = "/health" → r.method = "GET" ∨ r.method = "HEAD" →
      (SetupRoutes H cfg terminal r w).status = some 200 ∧
      (SetupRoutes H cfg terminal r w).body =
        RespBody.raw (bytes "\x7b\"status\":\"ok\"\x7d")) ∧
    (r.path = "/health" → r.method ≠ "GET" → r.method ≠ "HEAD" →
      (SetupRoutes H cfg terminal r w).status = some 405) ∧
    (r.path = "/v1/messages" → r.method ≠ "POST" →
      (SetupRoutes H cfg terminal r w).status = some 405) ∧
    (r.path ≠ "/health" → r.path ≠ "/v1/messages" →
      (SetupRoutes H cfg terminal r w).status = some 404) := by
  refine ⟨?_, ?_, ?_, ?_⟩
  · intro hp hm
    have hp2 : r.path ≠ "/v1/messages" := by simp [hp]
    constructor <;>
      simp [SetupRoutes, serveMux, healthHandler, writeBytes, writeHeaderStatus,
        hp, hp2, hm, hst, hbd]
  · intro hp hg hh
    have hp2 : r.path ≠ "/v1/messages" := by simp [hp]
    simp [SetupRoutes, serveMux, writeBytes, writeHeaderStatus, hp, hp2, hg, hh,
      hst, hbd]
  · intro hp hm
    simp [SetupRoutes, serveMux, writeBytes, writeHeaderStatus, hp, hm, hst, hbd]
  · intro hh hp
    simp [SetupRoutes, serveMux, writeBytes, writeHeaderStatus, hp, hh, hst, hbd]

/-- Witness for the amended C9 on the spec's concrete probes. -/
theorem dispatcher_outcomes_witness :
    ((SetupRoutes id ⟨[]⟩ idHandler (mkReq "GET" "/health" []) emptyRW).status
        = some 200 ∧
     (SetupRoutes id ⟨[]⟩ idHandler (mkReq "GET" "/health" []) emptyRW).body
        = RespBody.raw (bytes "\x7b\"status\":\"ok\"\x7d")) ∧
    (SetupRoutes id ⟨[]⟩ idHandler (mkReq "POST" "/health" []) emptyRW).status
        = some 405 ∧
    (SetupRoutes id ⟨[]⟩ idHandler (mkReq "GET" "/v1/messages" []) emptyRW).status
        = some 405 ∧
    (SetupRoutes id ⟨[]⟩ idHandler (mkReq "GET" "/unknown" []) emptyRW).status
        = some 404 :=
  ⟨(dispatcher_outcomes id ⟨[]⟩ idHandler (mkReq "GET" "/health" []) emptyRW
      rfl rfl).1 rfl (Or.inl rfl),
   (dispatcher_outcomes id ⟨[]⟩ idHandler (mkReq "POST" "/health" []) emptyRW
      rfl rfl).2.1 rfl (by decide) (by decide),
   (dispatcher_outcomes id ⟨[]⟩ idHandler (mkReq "GET" "/v1/messages" []) emptyRW
      rfl rfl).2.2.1 rfl (by decide),
   (dispatcher_outcomes id ⟨[]⟩ idHandler (mkReq "GET" "/unknown" []) emptyRW
      rfl rfl).2.2.2 (by decide) (by decide)⟩

/-! ## C4: X-Request-ID response header (corrected)

Only the messages route is wrapped in `RequestIDMiddleware`; the health
handler is registered standalone and the mux's 404/405 writers never pass
through the middleware, so those responses carry no request
identifier. -/

lemma authMiddleware_headers (H : List Nat → List Nat) (secret : List Nat)
    (next : Handler) (hnext : ∀ r w, (next r w).headers = w.headers)
    (r : Request) (w : ResponseWriter) :
    (AuthMiddleware H secret next r w).headers = w.headers := by
  by_cases hp : headerGet r.headers xApiKeyName = []
  · simp [AuthMiddleware, hp, writeError_headers]
  · by_cases hH : H (headerGet r.headers xApiKeyName) ≠ H secret
    · simp [AuthMiddleware, hp, hH, writeError_headers]
    · have He : H (headerGet r.headers xApiKeyName) = H secret := not_not.mp hH
      simp [AuthMiddleware, hp, He, hnext]

lemma requestIDMiddleware_headers (next : Handler)
    (hnext : ∀ r w, (next r w).headers = w.headers)
    (r : Request) (w : ResponseWriter) :
    (RequestIDMiddleware next r w).headers =
      headerSet w.headers xRequestIDName
        (AddRequestID r.ridSeed (headerGet r.headers xRequestIDName)) := by
  unfold RequestIDMiddleware
  by_cases h0 : headerGet r.headers xRequestIDName = [] <;>
    simp [h0, AddRequestID, hnext]

/-- C4 counterexample: the `GET /health` response (a real 200 response)
carries no `X-Request-ID` header at all — its header map is empty. -/
theorem response_request_id_counterexample :
    (SetupRoutes id ⟨bytes "test-key"⟩ idHandler
        (mkReq "GET" "/health" []) emptyRW).headers = [] ∧
    headerGet (SetupRoutes id ⟨bytes "test-key"⟩ idHandler
        (mkReq "GET" "/health" []) emptyRW).headers xRequestIDName = [] ∧
    (SetupRoutes id ⟨bytes "test-key"⟩ idHandler
        (mkReq "GET" "/health" []) emptyRW).status = some 200 := by
  decide

/-- C4 amended: responses produced on the `POST /v1/messages` route
(success or auth failure) carry the resolved request identifier in the
`X-Request-ID` response header, provided the terminal handler leaves
response headers unchanged; responses for `GET /health` and for
unmatched requests (404/405) leave the writer's headers untouched and in
particular carry no request identifier of their own. -/
theorem response_request_id_header (H : List Nat → List Nat) (cfg : Config)
    (terminal : Handler) (hterm : ∀ r w, (terminal r w).headers = w.headers)
    (r : Request) (w : ResponseWriter) :
    (r.method = "POST" → r.path = "/v1/messages" →
      headerGet (SetupRoutes H cfg terminal r w).headers xRequestIDName =
        AddRequestID r.ridSeed (headerGet r.headers xRequestIDName) ∧
      AddRequestID r.ridSeed (headerGet r.headers xRequestIDName) ≠ []) ∧
    (r.path ≠ "/v1/messages" ∨ r.method ≠ "POST" →
      (SetupRoutes H cfg terminal r w).headers = w.headers) := by
  constructor
  · intro hm hp
    have hroute : SetupRoutes H cfg terminal r w =
        RequestIDMiddleware (LoggingMiddleware
          (if cfg.serverAPIKey = [] then terminal
           else AuthMiddleware H cfg.serverAPIKey terminal)) r w := by
      simp [SetupRoutes, serveMux, hm, hp]
    have hinner : ∀ r w,
        ((LoggingMiddleware
          (if cfg.serverAPIKey = [] then terminal
           else AuthMiddleware H cfg.serverAPIKey terminal)) r w).headers =
          w.headers := by
      intro r w
      show ((if cfg.serverAPIKey = [] then terminal
        else AuthMiddleware H cfg.serverAPIKey terminal) r w).headers = w.headers
      by_cases hc : cfg.serverAPIKey = []
      · rw [if_pos hc]
        exact hterm r w
      · rw [if_neg hc]
        exact authMiddleware_headers H cfg.serverAPIKey terminal hterm r w
    rw [hroute, requestIDMiddleware_headers _ hinner]
    exact ⟨headerGet_headerSet_self ..,
      addRequestID_ne_nil r.ridSeed (headerGet r.headers xRequestIDName)⟩
  · intro hcase
    have hAll : ∀ (s : Nat) (bs : List Nat),
        (writeBytes (writeHeaderStatus w s) bs).headers = w.headers := by
      intro s bs
      rw [writeBytes_headers, writeHeaderStatus_headers]
    unfold SetupRoutes serveMux
    by_cases hp : r.path = "/v1/messages"
    · have hm2 : r.method ≠ "POST" := by
        rcases hcase with h | h
        · exact absurd hp h
        · exact h
      rw [if_pos hp, if_neg hm2]
      exact hAll _ _
    · rw [if_neg hp]
      by_cases hh : r.path = "/health"
      · rw [if_pos hh]
        split
        · show (writeBytes (writeHeaderStatus w 200) _).headers = w.headers
          exact hAll _ _
        · exact hAll _ _
      · rw [if_neg hh]
        exact hAll _ _

/-- Witness for the amended C4: the messages route carries the echoed
identifier; the health response leaves the (empty) headers unchanged. -/
theorem response_request_id_header_witness :
    (headerGet (SetupRoutes id ⟨[]⟩ idHandler reqWithID emptyRW).headers
        xRequestIDName =
      AddRequestID reqWithID.ridSeed (headerGet reqWithID.headers xRequestIDName) ∧
     AddRequestID reqWithID.ridSeed (headerGet reqWithID.headers xRequestIDName)
        ≠ []) ∧
    (SetupRoutes id ⟨[]⟩ idHandler (mkReq "GET" "/health" []) emptyRW).headers =
      emptyRW.headers :=
  ⟨(response_request_id_header id ⟨[]⟩ idHandler (fun _ _ => rfl) reqWithID
      emptyRW).1 rfl rfl,
   (response_request_id_header id ⟨[]⟩ idHandler (fun _ _ => rfl)
      (mkReq "GET" "/health" []) emptyRW).2 (Or.inl (by decide))⟩

/-! ## C3: header forwarding matches the spec's case-insensitive filter

For header collections produced by Go's HTTP machinery (keys are valid
MIME tokens already in canonical form, pairwise distinct), the code's
check `len(canonicalKey) >= 10 && canonicalKey[:10] == "Anthropic-"`
coincides with the spec's case-insensitive prefix match, and the copy
loop preserves the entries in iteration order, so `ForwardHeaders` equals
the spec-side filter-then-set description. -/

lemma pin_upper (b : Nat) (h1 : lowerByte b = 97) (h2 : upperByte b = b) :
    b = 65 := by
  unfold lowerByte at h1
  unfold upperByte at h2
  split_ifs at h1 h2 <;> omega

/-- A byte list in canonical MIME form whose lower-casing starts with
"anthropic-" starts with "Anthropic-". -/
lemma canon_pin_append (k t' : List Nat) (hc : canonSeq true k = k)
    (hm : k.map lowerByte = [97,110,116,104,114,111,112,105,99,45] ++ t') :
    ∃ t, k = [65,110,116,104,114,111,112,105,99,45] ++ t := by
  simp only [List.cons_append, List.nil_append] at hm
  obtain ⟨b0, k1, rfl, hb0, hm1⟩ := List.map_eq_cons_iff.mp hm
  simp only [canonSeq, reduceIte, List.cons.injEq] at hc
  obtain ⟨hc0, hc⟩ := hc
  have e0 : b0 = 65 := pin_upper b0 hb0 hc0
  subst e0
  norm_num [upperByte] at hc
  obtain ⟨b1, k2, rfl, hb1, hm2⟩ := List.map_eq_cons_iff.mp hm1
  simp only [canonSeq, reduceIte, List.cons.injEq] at hc
  obtain ⟨hc1, hc⟩ := hc
  have e1 : b1 = 110 := hc1.symm.trans hb1
  subst e1
  norm_num [lowerByte] at hc
  obtain ⟨b2, k3, rfl, hb2, hm3⟩ := List.map_eq_cons_iff.mp hm2
  simp only [canonSeq, reduceIte, List.cons.injEq] at hc
  obtain ⟨hc2, hc⟩ := hc
  have e2 : b2 = 116 := hc2.symm.trans hb2
  subst e2
  norm_num [lowerByte] at hc
  obtain ⟨b3, k4, rfl, hb3, hm4⟩ := List.map_eq_cons_iff.mp hm3
  simp only [canonSeq, reduceIte, List.cons.injEq] at hc
  obtain ⟨hc3, hc⟩ := hc
  have e3 : b3 = 104 := hc3.symm.trans hb3
  subst e3
  norm_num [lowerByte] at hc
  obtain ⟨b4, k5, rfl, hb4, hm5⟩ := List.map_eq_cons_iff.mp hm4
  simp only [canonSeq, reduceIte, List.cons.injEq] at hc
  obtain ⟨hc4, hc⟩ := hc
  have e4 : b4 = 114 := hc4.symm.trans hb4
  subst e4
  norm_num [lowerByte] at hc
  obtain ⟨b5, k6, rfl, hb5, hm6⟩ := List.map_eq_cons_iff.mp hm5
  simp only [canonSeq, reduceIte, List.cons.injEq] at hc
  obtain ⟨hc5, hc⟩ := hc
  have e5 : b5 = 111 := hc5.symm.trans hb5
  subst e5
  norm_num [lowerByte] at hc
  obtain ⟨b6, k7, rfl, hb6, hm7⟩ := List.map_eq_cons_iff.mp hm6
  simp only [canonSeq, reduceIte, List.cons.injEq] at hc
  obtain ⟨hc6, hc⟩ := hc
  have e6 : b6 = 112 := hc6.symm.trans hb6
  subst e6
  norm_num [lowerByte] at hc
  obtain ⟨b7, k8, rfl, hb7, hm8⟩ := List.map_eq_cons_iff.mp hm7
  simp only [canonSeq, reduceIte, List.cons.injEq] at hc
  obtain ⟨hc7, hc⟩ := hc
  have e7 : b7 = 105 := hc7.symm.trans hb7
  subst e7
  norm_num [lowerByte] at hc
  obtain ⟨b8, k9, rfl, hb8, hm9⟩ := List.map_eq_cons_iff.mp hm8
  simp only [canonSeq, reduceIte, List.cons.injEq] at hc
  obtain ⟨hc8, hc⟩ := hc
  have e8 : b8 = 99 := hc8.symm.trans hb8
  subst e8
  norm_num [lowerByte] at hc
  obtain ⟨b9, k10, rfl, hb9, hm10⟩ := List.map_eq_cons_iff.mp hm9
  simp only [canonSeq, reduceIte, List.cons.injEq] at hc
  obtain ⟨hc9, hc⟩ := hc
  have e9 : b9 = 45 := hc9.symm.trans hb9
  subst e9
  exact ⟨k10, rfl⟩

/-- On a canonical valid-token key, the code's canonical-prefix check
coincides with the spec's case-insensitive prefix match. -/
lemma step_cond_iff (k : List Nat) (hv : ValidCanonKey k = true) :
    (10 ≤ (canonicalHeaderKey k).length ∧
      (canonicalHeaderKey k).take 10 = anthropicCanonPrefix) ↔
      matchesAnthropicPrefixCI k = true := by
  rw [ValidCanonKey, Bool.and_eq_true, beq_iff_eq] at hv
  obtain ⟨ht, hc⟩ := hv
  have hck : canonicalHeaderKey k = k := by
    unfold canonicalHeaderKey
    rw [if_pos ht, hc]
  rw [hck]
  unfold matchesAnthropicPrefixCI
  simp only [Bool.and_eq_true, decide_eq_true_eq, beq_iff_eq]
  constructor
  · rintro ⟨hlen, htake⟩
    refine ⟨hlen, ?_⟩
    have hk : k = anthropicCanonPrefix ++ k.drop 10 := by
      conv_lhs => rw [← List.take_append_drop 10 k]
      rw [htake]
    calc (k.map lowerByte).take 10
        = ((anthropicCanonPrefix ++ k.drop 10).map lowerByte).take 10 := by
          rw [← hk]
      _ = (anthropicCanonPrefix.map lowerByte
            ++ (k.drop 10).map lowerByte).take 10 := by rw [List.map_append]
      _ = anthropicCanonPrefix.map lowerByte := List.take_left' (by decide)
      _ = bytes "anthropic-" := by decide
  · rintro ⟨hlen, htake⟩
    have hm : k.map lowerByte =
        [97,110,116,104,114,111,112,105,99,45] ++ (k.map lowerByte).drop 10 := by
      conv_lhs => rw [← List.take_append_drop 10 (k.map lowerByte)]
      rw [htake, show bytes "anthropic-" = [97,110,116,104,114,111,112,105,99,45]
        from by decide]
    obtain ⟨t, hkt⟩ := canon_pin_append k _ hc hm
    rw [hkt]
    constructor
    · simp
    · rw [show anthropicCanonPrefix = [65,110,116,104,114,111,112,105,99,45]
        from by decide]
      exact List.take_left' (by decide)

lemma appendValues_eq_append (h : HeaderMap) (k : List Nat)
    (vs : List (List Nat)) (hk : ∀ e ∈ h, e.1 ≠ k) :
    appendValues h k vs = h ++ [(k, vs)] := by
  induction h with
  | nil => rfl
  | cons e rest ih =>
    have hne : (e.1 == k) = false := by
      simpa using hk e (List.mem_cons_self e rest)
    simp only [appendValues]
    rw [if_neg (by simp [hne])]
    rw [ih (fun f hf => hk f (List.mem_cons_of_mem e hf))]
    rfl

lemma forward_fold_eq_filter (h : HeaderMap) :
    ∀ acc : HeaderMap,
    (∀ e ∈ h, ValidCanonKey e.1 = true) →
    (h.map (fun e => e.1)).Nodup →
    (∀ e ∈ h, ∀ e' ∈ acc, e'.1 ≠ e.1) →
    h.foldl forwardHeadersStep acc =
      acc ++ h.filter (fun e => matchesAnthropicPrefixCI e.1) := by
  induction h with
  | nil => intro acc _ _ _; simp
  | cons e rest ih =>
    intro acc hv hnd hdisj
    rw [List.foldl_cons]
    have hve : ValidCanonKey e.1 = true := hv e (List.mem_cons_self e rest)
    have hck : canonicalHeaderKey e.1 = e.1 := by
      rw [ValidCanonKey, Bool.and_eq_true, beq_iff_eq] at hve
      unfold canonicalHeaderKey
      rw [if_pos hve.1, hve.2]
    have hnd_tail : (rest.map (fun e => e.1)).Nodup := by
      simpa using hnd.of_cons
    have hnotmem : e.1 ∉ rest.map (fun e => e.1) := by
      have := hnd
      simp only [List.map_cons, List.nodup_cons] at this
      exact this.1
    by_cases hmatch : matchesAnthropicPrefixCI e.1 = true
    · have hcond := (step_cond_iff e.1 hve).mpr hmatch
      have hstep : forwardHeadersStep acc e = acc ++ [(e.1, e.2)] := by
        unfold forwardHeadersStep
        rw [if_pos hcond, hck]
        exact appendValues_eq_append acc e.1 e.2
          (fun f hf => hdisj e (List.mem_cons_self e rest) f hf)
      rw [hstep, ih (acc ++ [(e.1, e.2)])
        (fun f hf => hv f (List.mem_cons_of_mem e hf)) hnd_tail ?_]
      · simp [List.filter_cons, hmatch]
      · intro f hf e' he'
        rcases List.mem_append.mp he' with ha | hb
        · exact hdisj f (List.mem_cons_of_mem e hf) e' ha
        · have he2 : e' = (e.1, e.2) := by simpa using hb
          rw [he2]
          intro hfe
          exact hnotmem (hfe ▸ List.mem_map_of_mem (fun e => e.1) hf)
    · have hcond : ¬(10 ≤ (canonicalHeaderKey e.1).length ∧
          (canonicalHeaderKey e.1).take 10 = anthropicCanonPrefix) :=
        fun hcond => hmatch ((step_cond_iff e.1 hve).mp hcond)
      have hstep : forwardHeadersStep acc e = acc := by
        unfold forwardHeadersStep
        rw [if_neg hcond]
      rw [hstep, ih acc (fun f hf => hv f (List.mem_cons_of_mem e hf)) hnd_tail
        (fun f hf => hdisj f (List.mem_cons_of_mem e hf))]
      simp [List.filter_cons, hmatch]

/-- C3: on every well-formed inbound header collection (keys are
canonical valid MIME tokens, as Go's request parsing guarantees, and
pairwise distinct), both providers' `ForwardHeaders` return exactly the
entries whose name matches the prefix "anthropic-" case-insensitively,
with their original values, plus `Content-Type: application/json`
overwriting any client-supplied value — the spec-side description
`forwardHeadersSpec`; the function is pure and deterministic by
construction.  The spec's concrete example is checked exactly. -/
theorem forward_headers_correct (h : HeaderMap) (hwf : HeaderWF h) :
    anthropicForwardHeaders h = forwardHeadersSpec h ∧
    zaiForwardHeaders h = forwardHeadersSpec h ∧
    anthropicForwardHeaders
        [(bytes "Anthropic-Version", [bytes "v1"]), (bytes "X-Other", [bytes "x"])] =
      [(bytes "Anthropic-Version", [bytes "v1"]),
       (bytes "Content-Type", [bytes "application/json"])] := by
  obtain ⟨hv, hnd⟩ := hwf
  have key := forward_fold_eq_filter h [] hv hnd (by simp)
  refine ⟨?_, ?_, by decide⟩ <;>
    simp [anthropicForwardHeaders, zaiForwardHeaders, forwardHeadersSpec, key]

/-- Witness for C3 at the spec's concrete (well-formed) input. -/
theorem forward_headers_correct_witness :
    anthropicForwardHeaders
        [(bytes "Anthropic-Version", [bytes "v1"]), (bytes "X-Other", [bytes "x"])] =
      forwardHeadersSpec
        [(bytes "Anthropic-Version", [bytes "v1"]), (bytes "X-Other", [bytes "x"])] ∧
    zaiForwardHeaders
        [(bytes "Anthropic-Version", [bytes "v1"]), (bytes "X-Other", [bytes "x"])] =
      forwardHeadersSpec
        [(bytes "Anthropic-Version", [bytes "v1"]), (bytes "X-Other", [bytes "x"])] ∧
    anthropicForwardHeaders
        [(bytes "Anthropic-Version", [bytes "v1"]), (bytes "X-Other", [bytes "x"])] =
      [(bytes "Anthropic-Version", [bytes "v1"]),
       (bytes "Content-Type", [bytes "application/json"])] :=
  forward_headers_correct
    [(bytes "Anthropic-Version", [bytes "v1"]), (bytes "X-Other", [bytes "x"])]
    ⟨by decide, by decide⟩

end CCRelay
